import Mathlib

/-!
# KeyTagger core — shallow embedding

A shallow embedding of the core of the KeyTagger repository
(`src/cpp/src/core`): the SQLite-backed media/tag store
(`Database.cpp`), the incremental scanner worker (`Scanner.cpp`) and
the asynchronous thumbnail cache (`ThumbnailCache.cpp`).

Modelling conventions, fixed once here:

* SQL `TEXT` columns that the C++ binds as
  `value.isEmpty() ? QVariant() : value` are stored as plain `String`,
  with `""` playing the role of SQL `NULL`: the C++ reads such columns
  back with `QVariant::toString()`, which maps `NULL` to `""`, so the
  two representations are observationally identical to every caller in
  the repository.
* Nullable `INTEGER` columns are `Option Int`; the C++ reads them back
  with `QVariant::toLongLong()`, which maps `NULL` to `0`, modelled as
  `Option.getD 0` at the read sites.
* Tables are association lists in row order.  Schema uniqueness
  (`media.file_path UNIQUE`, `tags.name UNIQUE`, primary keys) is not
  baked into the type; theorems that need it take it as a hypothesis.
* `initializeSchema` runs only `PRAGMA journal_mode=WAL` and
  `PRAGMA synchronous=NORMAL`.  It never runs
  `PRAGMA foreign_keys=ON`, and SQLite keeps foreign-key enforcement
  OFF by default, so the `ON DELETE CASCADE` clauses declared on
  `media_tags` are inert: deleting a `media` row does not delete its
  junction rows.  The embedding reproduces this actual behaviour.
* Qt string helpers: `QString::trimmed` is `String.trim`,
  `QString::toLower` is `String.toLower` (the repository's tag names
  and paths are ASCII, where the two agree with Qt).
-/

namespace KeyTagger

/-- ASCII lower-casing of one character (`QChar::toLower` restricted to
ASCII, which is all the repository's extensions and tag names use). -/
def lowerChar (c : Char) : Char :=
  if 'A' ≤ c ∧ c ≤ 'Z' then Char.ofNat (c.toNat + 32) else c

/-- ASCII whitespace (`QChar::isSpace` restricted to ASCII). -/
def isAsciiSpace (c : Char) : Bool :=
  c == ' ' || c == '\t' || c == '\n' || c == '\r'

/-- Strip leading and trailing whitespace from a character list. -/
def trimChars (l : List Char) : List Char :=
  ((l.dropWhile isAsciiSpace).reverse.dropWhile isAsciiSpace).reverse

/-- `QString::toLower` on ASCII content. -/
def asciiLower (s : String) : String := ⟨s.data.map lowerChar⟩

/-- `enum class MediaType` from `MediaRecord.h`. -/
inductive MediaType where
  | image
  | video
  | audio
  | unknown
deriving DecidableEq, Repr

/-- `IMAGE_EXTENSIONS` from `MediaRecord.cpp` / `Scanner.cpp`. -/
def IMAGE_EXTENSIONS : List String :=
  [".jpg", ".jpeg", ".png", ".webp", ".bmp", ".tif", ".tiff", ".gif"]

/-- `VIDEO_EXTENSIONS` from `MediaRecord.cpp` / `Scanner.cpp`. -/
def VIDEO_EXTENSIONS : List String :=
  [".mp4", ".mov", ".avi", ".mkv", ".webm", ".m4v", ".wmv", ".3gp"]

/-- `AUDIO_EXTENSIONS` from `MediaRecord.cpp` / `Scanner.cpp`. -/
def AUDIO_EXTENSIONS : List String :=
  [".m4a", ".mp3", ".wav", ".flac", ".ogg", ".aac"]

/-- `MediaRecord::typeFromExtension` (`MediaRecord.cpp`). -/
def typeFromExtension (ext : String) : MediaType :=
  let lower := asciiLower ext
  if IMAGE_EXTENSIONS.contains lower then .image
  else if VIDEO_EXTENSIONS.contains lower then .video
  else if AUDIO_EXTENSIONS.contains lower then .audio
  else .unknown

/-- `MediaRecord::mediaTypeToString` (`MediaRecord.cpp`). -/
def mediaTypeToString : MediaType → String
  | .image => "image"
  | .video => "video"
  | .audio => "audio"
  | .unknown => "unknown"

/-- The `struct MediaRecord` of `MediaRecord.h`, restricted to the fields
`Database::upsertMedia` binds (the C++ `status` member is ignored by the
upsert, which hardcodes the SQL literal `'active'`). -/
structure MediaRecord where
  filePath : String
  rootDir : String
  fileName : String
  sha256 : String := ""
  pHash : String := ""
  width : Option Int := none
  height : Option Int := none
  sizeBytes : Option Int := none
  capturedTimeUtc : Option Int := none
  modifiedTimeUtc : Option Int := none
  mediaType : MediaType := .unknown
  thumbnailPath : String := ""
  error : String := ""
deriving DecidableEq, Repr

/-- One row of the `media` table (schema in `Database::initializeSchema`). -/
structure MediaRow where
  id : Int
  filePath : String
  rootDir : String
  fileName : String
  sha256 : String
  pHash : String
  width : Option Int
  height : Option Int
  sizeBytes : Option Int
  capturedTimeUtc : Option Int
  modifiedTimeUtc : Option Int
  mediaType : String
  thumbnailPath : String
  status : String
  error : String
deriving DecidableEq, Repr

/-- One row of the `tags` table: `id INTEGER PRIMARY KEY, name TEXT UNIQUE`. -/
structure TagRow where
  id : Int
  name : String
deriving DecidableEq, Repr

/-- The persistent store owned by the `Database` class: the three tables
plus the next rowids SQLite would assign (`INTEGER PRIMARY KEY` rows get
`max(id)+1`; a fresh database starts at 1, kept here as counters).
`mediaTags` rows are `(media_id, tag_id)` pairs. -/
structure Database where
  media : List MediaRow
  tags : List TagRow
  mediaTags : List (Int × Int)
  nextMediaId : Int
  nextTagId : Int
deriving DecidableEq, Repr

/-- A freshly created store (`initializeSchema` on a new file). -/
def Database.empty : Database :=
  { media := [], tags := [], mediaTags := [], nextMediaId := 1, nextTagId := 1 }

/-- Tag-name normalisation used throughout `Database.cpp`:
`tag.trimmed().toLower()`. -/
def normalizeTag (s : String) : String := ⟨(trimChars s.data).map lowerChar⟩

/-- `ORDER BY name ASC` on strings: SQLite's default BINARY collation is
bytewise, matched by `String.lt` on the repository's ASCII tag names. -/
def strLe (a b : String) : Bool := !(decide (b < a))

/-- Insert into a `le`-sorted list, keeping existing order on ties. -/
def insertSorted {α : Type} (le : α → α → Bool) (x : α) : List α → List α
  | [] => [x]
  | y :: ys => if le x y then x :: y :: ys else y :: insertSorted le x ys

/-- Insertion sort, used to model SQL `ORDER BY`. -/
def sortListBy {α : Type} (le : α → α → Bool) (l : List α) : List α :=
  l.foldr (insertSorted le) []

namespace Database

/-- `SELECT id FROM tags WHERE name = ?` (first match; `name` is UNIQUE). -/
def findTag (tags : List TagRow) (name : String) : Option TagRow :=
  tags.find? (fun t => t.name == name)

/-- One iteration of the loop in `Database::upsertTags`: normalise, skip
empties, `INSERT ... ON CONFLICT(name) DO NOTHING`, then look the id up. -/
def upsertOneTag (acc : Database × List Int) (name : String) :
    Database × List Int :=
  let (db, ids) := acc
  let normalized := normalizeTag name
  if normalized = "" then (db, ids)
  else
    let db' :=
      if (findTag db.tags normalized).isSome then db
      else { db with
              tags := db.tags ++ [⟨db.nextTagId, normalized⟩],
              nextTagId := db.nextTagId + 1 }
    match findTag db'.tags normalized with
    | some t => (db', ids ++ [t.id])
    | none => (db', ids)

/-- `Database::upsertTags`. -/
def upsertTags (db : Database) (tagNames : List String) :
    Database × List Int :=
  tagNames.foldl upsertOneTag (db, [])

/-- `INSERT OR IGNORE INTO media_tags(media_id, tag_id) VALUES (?, ?)`. -/
def insertMediaTagIgnore (mediaId tagId : Int) (db : Database) : Database :=
  if db.mediaTags.contains (mediaId, tagId) then db
  else { db with mediaTags := db.mediaTags ++ [(mediaId, tagId)] }

/-- `Database::setMediaTags`. -/
def setMediaTags (mediaId : Int) (tagNames : List String) (db : Database) :
    Database :=
  let (db1, tagIds) := upsertTags db tagNames
  let db2 :=
    { db1 with mediaTags := db1.mediaTags.filter (fun mt => !(mt.1 == mediaId)) }
  tagIds.foldl (fun d tagId => insertMediaTagIgnore mediaId tagId d) db2

/-- `Database::addMediaTags`. -/
def addMediaTags (mediaId : Int) (tagNames : List String) (db : Database) :
    Database :=
  let (db1, tagIds) := upsertTags db tagNames
  tagIds.foldl (fun d tagId => insertMediaTagIgnore mediaId tagId d) db1

/-- `Database::removeMediaTags`: normalise and drop empties, collect the
ids of the named tags, then `DELETE FROM media_tags WHERE media_id = ?
AND tag_id = ?` per id.  No statement in this function touches the
`tags` table. -/
def removeMediaTags (mediaId : Int) (tagNames : List String) (db : Database) :
    Database :=
  if tagNames.isEmpty then db
  else
    let normalized := (tagNames.map normalizeTag).filter (fun n => n ≠ "")
    if normalized.isEmpty then db
    else
      let tagIds :=
        (db.tags.filter (fun t => normalized.contains t.name)).map (·.id)
      tagIds.foldl
        (fun d tagId =>
          { d with mediaTags :=
              d.mediaTags.filter (fun mt => !(mt.1 == mediaId && mt.2 == tagId)) })
        db

/-- `Database::removeTagGlobally`: look the tag up, delete all its
junction rows (`affected` is their count), then delete the tag row
itself when no junction row references it any more. -/
def removeTagGlobally (tagName : String) (db : Database) : Database × Int :=
  let normalized := normalizeTag tagName
  if normalized = "" then (db, 0)
  else
    match findTag db.tags normalized with
    | none => (db, 0)
    | some t =>
      let affected := (db.mediaTags.filter (fun mt => mt.2 == t.id)).length
      let db1 :=
        { db with mediaTags := db.mediaTags.filter (fun mt => !(mt.2 == t.id)) }
      let db2 :=
        if db1.mediaTags.any (fun mt => mt.2 == t.id) then db1
        else { db1 with tags := db1.tags.filter (fun tg => !(tg.id == t.id)) }
      (db2, (affected : Int))

/-- `Database::allTags`: `SELECT name FROM tags ORDER BY name ASC`. -/
def allTags (db : Database) : List String :=
  (sortListBy (fun a b => strLe a.name b.name) db.tags).map (·.name)

/-- `Database::getMediaTags`: names of the tags joined to `mediaId`,
ordered by name. -/
def getMediaTags (mediaId : Int) (db : Database) : List String :=
  let joined := db.tags.filter
    (fun t => db.mediaTags.any (fun mt => mt.1 == mediaId && mt.2 == t.id))
  (sortListBy (fun a b => strLe a.name b.name) joined).map (·.name)

/-- The row multiset produced for one tag by the FROM clause of
`Database::tagCounts`:
`tags t LEFT JOIN media_tags mt ON mt.tag_id = t.id
LEFT JOIN media m ON m.id = mt.media_id AND m.status = 'active'`.
A left join yields one null-extended row when nothing matches, and one
row per match otherwise. -/
def tagCountJoinRows (db : Database) (t : TagRow) :
    List (Option (Int × Int) × Option MediaRow) :=
  if (db.mediaTags.filter (fun mt => mt.2 == t.id)).isEmpty then [(none, none)]
  else
    (db.mediaTags.filter (fun mt => mt.2 == t.id)).flatMap (fun mt =>
      if (db.media.filter (fun m => m.id == mt.1 && m.status == "active")).isEmpty
      then [(some mt, none)]
      else (db.media.filter (fun m => m.id == mt.1 && m.status == "active")).map
        (fun m => (some mt, some m)))

/-- `Database::tagCounts`: group the join rows by tag (`GROUP BY t.id`;
tag ids are the PRIMARY KEY, so grouping by id is grouping per tag row),
count `COUNT(mt.media_id)` — the rows whose `media_tags` side is
non-null — and order by name. -/
def tagCounts (db : Database) : List (String × Nat) :=
  (sortListBy (fun a b => strLe a.name b.name) db.tags).map
    (fun t => (t.name, ((tagCountJoinRows db t).filter (fun r => r.1.isSome)).length))

/-- `Database::untaggedCount`. -/
def untaggedCount (db : Database) : Nat :=
  (db.media.filter (fun m =>
    m.status == "active" &&
    !(db.mediaTags.any (fun mt => mt.1 == m.id)))).length

/-- `Database::upsertMedia`: `INSERT ... ON CONFLICT(file_path) DO UPDATE`.
The conflict branch updates every content column and forces
`status='active'` but leaves `root_dir` and `file_name` as they were
(they are absent from the `DO UPDATE SET` list).  The returned id is the
`SELECT id FROM media WHERE file_path = ?` after the statement. -/
def upsertMedia (record : MediaRecord) (db : Database) : Database × Int :=
  match db.media.find? (fun m => m.filePath == record.filePath) with
  | some old =>
    let db' :=
      { db with media := db.media.map (fun m =>
          if m.filePath == record.filePath then
            { m with
                sha256 := record.sha256,
                pHash := record.pHash,
                width := record.width,
                height := record.height,
                sizeBytes := record.sizeBytes,
                capturedTimeUtc := record.capturedTimeUtc,
                modifiedTimeUtc := record.modifiedTimeUtc,
                mediaType := mediaTypeToString record.mediaType,
                thumbnailPath := record.thumbnailPath,
                status := "active",
                error := record.error }
          else m) }
    (db', old.id)
  | none =>
    let row : MediaRow :=
      { id := db.nextMediaId,
        filePath := record.filePath,
        rootDir := record.rootDir,
        fileName := record.fileName,
        sha256 := record.sha256,
        pHash := record.pHash,
        width := record.width,
        height := record.height,
        sizeBytes := record.sizeBytes,
        capturedTimeUtc := record.capturedTimeUtc,
        modifiedTimeUtc := record.modifiedTimeUtc,
        mediaType := mediaTypeToString record.mediaType,
        thumbnailPath := record.thumbnailPath,
        status := "active",
        error := record.error }
    ({ db with media := db.media ++ [row], nextMediaId := db.nextMediaId + 1 },
     db.nextMediaId)

/-- `Database::deleteMedia`: `DELETE FROM media WHERE file_path = ?`.
`PRAGMA foreign_keys` is never enabled by `initializeSchema` (it only
sets `journal_mode` and `synchronous`), and SQLite defaults it to OFF,
so the `ON DELETE CASCADE` declared on `media_tags` does not fire: the
junction rows are left in place.  Returns whether a row was deleted. -/
def deleteMedia (filePath : String) (db : Database) : Database × Bool :=
  let remaining := db.media.filter (fun m => !(m.filePath == filePath))
  ({ db with media := remaining }, remaining.length < db.media.length)

/-- `Database::updateThumbnailPath`:
`UPDATE media SET thumbnail_path = ? WHERE file_path = ?`. -/
def updateThumbnailPath (filePath thumbnailPath : String) (db : Database) :
    Database :=
  { db with media := db.media.map (fun m =>
      if m.filePath == filePath then { m with thumbnailPath := thumbnailPath }
      else m) }

/-- One entry of `Database::existingMediaMapForRoot`'s result: the five
columns the scanner needs. -/
structure SnapshotEntry where
  sizeBytes : Option Int
  modifiedTimeUtc : Option Int
  thumbnailPath : String
  sha256 : String
  mediaType : String
deriving DecidableEq, Repr

/-- `Database::existingMediaMapForRoot`: path-keyed snapshot of the
active rows under `rootDir`.  `rootDir` here is already the absolute
path (the C++ applies `QDir(rootDir).absolutePath()` before comparing). -/
def existingMediaMapForRoot (rootDir : String) (db : Database) :
    List (String × SnapshotEntry) :=
  (db.media.filter (fun m => m.rootDir == rootDir && m.status == "active")).map
    (fun m => (m.filePath,
      ⟨m.sizeBytes, m.modifiedTimeUtc, m.thumbnailPath, m.sha256, m.mediaType⟩))

/-- `Database::markMissingFilesDeleted`.  The C++ issues one of two
UPDATE statements (SQL cannot spell `NOT IN ()`, so the empty list gets
its own statement without the path condition); both set
`status='deleted'` on the active rows under `rootDir` (already absolute,
as above) whose path the condition selects.  Returns the updated store
and `numRowsAffected`. -/
def markMissingFilesDeleted (existingPaths : List String) (rootDir : String)
    (db : Database) : Database × Nat :=
  if existingPaths.isEmpty then
    let pred := fun (m : MediaRow) => m.rootDir == rootDir && m.status == "active"
    ({ db with media := db.media.map (fun m =>
        if pred m then { m with status := "deleted" } else m) },
     (db.media.filter pred).length)
  else
    let pred := fun (m : MediaRow) =>
      m.rootDir == rootDir && m.status == "active" &&
      !(existingPaths.contains m.filePath)
    ({ db with media := db.media.map (fun m =>
        if pred m then { m with status := "deleted" } else m) },
     (db.media.filter pred).length)

/-- `SELECT id FROM tags WHERE name IN (...)` restricted to the
normalised request list, then projected to ids — the inner subquery of
both tag-filter clauses in `Database::queryMedia`. -/
def matchingTagIds (db : Database) (normTags : List String) : List Int :=
  (db.tags.filter (fun t => normTags.contains t.name)).map (·.id)

/-- The tag clause of `Database::queryMedia`.  With `tagsMatchAll`:
`id IN (SELECT media_id FROM media_tags WHERE tag_id IN (...) GROUP BY
media_id HAVING COUNT(DISTINCT tag_id) = n)` where `n` is the length of
the normalised request list, duplicates included.  Without: at least one
matching junction row. -/
def mediaMatchesTagClause (db : Database) (normTags : List String)
    (tagsMatchAll : Bool) (mediaId : Int) : Bool :=
  if tagsMatchAll then
    (((db.mediaTags.filter (fun mt =>
        mt.1 == mediaId && (matchingTagIds db normTags).contains mt.2)).map
          (·.2)).dedup).length == normTags.length
  else
    db.mediaTags.any (fun mt =>
      mt.1 == mediaId && (matchingTagIds db normTags).contains mt.2)

/-- Is `needle` a contiguous substring of `hay` (over characters)? -/
def hasSubstr (needle : List Char) : List Char → Bool
  | [] => needle.isEmpty
  | c :: rest => needle.isPrefixOf (c :: rest) || hasSubstr needle rest

/-- `file_name LIKE '%text%'`: SQLite's LIKE is case-insensitive on
ASCII. -/
def likeContains (fileName searchText : String) : Bool :=
  hasSubstr (asciiLower searchText).data (asciiLower fileName).data

/-- The WHERE predicate assembled by `Database::queryMedia`:
`status='active'`, the optional filename LIKE, the tag clause (added
only when the *raw* request list is non-empty), and the optional
root-directory equality (`rootDir` already absolute, see
`existingMediaMapForRoot`). -/
def rowMatchesQuery (db : Database) (requiredTags : List String)
    (searchText rootDir : String) (tagsMatchAll : Bool) (m : MediaRow) : Bool :=
  m.status == "active" &&
  (searchText == "" || likeContains m.fileName searchText) &&
  (requiredTags.isEmpty ||
    mediaMatchesTagClause db (requiredTags.map normalizeTag) tagsMatchAll m.id) &&
  (rootDir == "" || m.rootDir == rootDir)

/-- The `orderBy` every caller in the repository passes
(`GalleryModel::refresh`): `"modified_time_utc DESC, id DESC"`.  In
SQLite `NULL` sorts after every value under `DESC`. -/
def rowOrderLe (a b : MediaRow) : Bool :=
  if a.modifiedTimeUtc == b.modifiedTimeUtc then b.id ≤ a.id
  else
    match a.modifiedTimeUtc, b.modifiedTimeUtc with
    | none, _ => false
    | some _, none => true
    | some x, some y => y ≤ x

/-- `Database::queryMedia`: the total count is taken over the WHERE
predicate before pagination; the page itself is the ordered filtered
rows after `LIMIT ? OFFSET ?`. -/
def queryMedia (db : Database) (requiredTags : List String)
    (searchText : String) (limit offset : Nat) (rootDir : String)
    (tagsMatchAll : Bool) : List MediaRow × Nat :=
  let filtered := db.media.filter
    (rowMatchesQuery db requiredTags searchText rootDir tagsMatchAll)
  (((sortListBy rowOrderLe filtered).drop offset).take limit, filtered.length)

end Database

/-! ## Scanner (`Scanner.cpp`, `ScannerWorker`)

The scanner's interaction with the world outside the store is modelled
by a per-file environment record carrying the answers the filesystem
and codec calls would return, plus the set of thumbnail files on disk.
The run is deterministic in that environment.  Cooperative cancellation
(`m_cancelled`, flipped from another thread) is not modelled: the runs
the theorems below speak about are uncancelled. -/

/-- One file enumerated by `Scanner::listMediaFiles`, together with the
environment's answers for it.  `ext` is `"." + QFileInfo(path).suffix().toLower()`,
exactly as both `ScannerWorker::process` and the `Scanner::is*File`
helpers compute it from `path`. -/
structure FsFile where
  path : String
  fileName : String
  ext : String
  sizeBytes : Int
  modifiedTimeUtc : Int
  /-- `ScannerWorker::computeSha256` result; `""` when the file cannot
  be opened (the function returns a null `QString` then — no exception). -/
  sha256 : String
  /-- `ScannerWorker::computeImagePHash` result (`""` on decode failure). -/
  pHash : String
  /-- `getImageDimensions` / `getVideoDimensions` result. -/
  width : Int
  height : Int
  /-- `ScannerWorker::getImageCaptureTime` result (0 when absent). -/
  capturedTime : Int
  /-- Does `createImageThumbnail` succeed on this file? -/
  imageThumbOk : Bool
  /-- Does `createVideoThumbnail` succeed on this file? -/
  videoThumbOk : Bool
  /-- A `std::exception` raised inside the per-file try block and caught
  by the loop's catch, carrying its `what()` message. -/
  throwsMsg : Option String
deriving DecidableEq, Repr

/-- The fixed inputs of one `ScannerWorker` run: the (absolute) root,
the thumbnails directory, and the enumerated files. -/
structure ScanEnv where
  rootDir : String
  thumbnailsDir : String
  files : List FsFile
deriving Repr

/-- `struct ScanResult`'s counters as accumulated by the loop. -/
structure ScanResult where
  scanned : Nat
  addedOrUpdated : Nat
  errors : Nat
deriving DecidableEq, Repr

/-- The mutable state threaded through the scan loop: the store, the
set of thumbnail files on disk, and the counters. -/
structure ScanState where
  db : Database
  thumbs : List String
  res : ScanResult
deriving DecidableEq, Repr

/-- `Scanner::isImageFile` (the extension is precomputed in `FsFile.ext`). -/
def FsFile.isImage (f : FsFile) : Bool := IMAGE_EXTENSIONS.contains f.ext

/-- `Scanner::isVideoFile`. -/
def FsFile.isVideo (f : FsFile) : Bool := VIDEO_EXTENSIONS.contains f.ext

/-- `QDir(m_thumbnailsDir).filePath(sha256 + ".jpg")`. -/
def thumbFilePath (env : ScanEnv) (sha : String) : String :=
  env.thumbnailsDir ++ "/" ++ sha ++ ".jpg"

/-- Writing a thumbnail file: the on-disk set gains `p` (overwriting is
idempotent on the set). -/
def addThumb (p : String) (thumbs : List String) : List String :=
  if thumbs.contains p then thumbs else thumbs ++ [p]

/-- `existingMap.contains(filePath)` / `existingMap[filePath]`. -/
def lookupSnap (snap : List (String × Database.SnapshotEntry)) (p : String) :
    Option Database.SnapshotEntry :=
  (snap.find? (fun e => e.1 == p)).map (·.2)

/-- The skip/refresh branch of `ScannerWorker::process` (lines 249–279),
entered when the snapshot entry matches on size and mtime and has a
non-empty hash.  When the recorded thumbnail file exists the file is
fast-skipped; otherwise only the thumbnail keyed by the stored hash is
recreated, and the stored path updated when creation succeeded and the
path changed. -/
def skipOrRefresh (env : ScanEnv) (prev : Database.SnapshotEntry)
    (st : ScanState) (f : FsFile) : ScanState :=
  if prev.thumbnailPath != "" && st.thumbs.contains prev.thumbnailPath then
    { st with res := { st.res with scanned := st.res.scanned + 1 } }
  else
    { db :=
        if (if f.isImage then f.imageThumbOk
            else if f.isVideo then f.videoThumbOk
            else false) &&
           (thumbFilePath env prev.sha256 != prev.thumbnailPath) then
          Database.updateThumbnailPath f.path (thumbFilePath env prev.sha256)
            st.db
        else st.db,
      thumbs :=
        if (if f.isImage then f.imageThumbOk
            else if f.isVideo then f.videoThumbOk
            else false) then
          addThumb (thumbFilePath env prev.sha256) st.thumbs
        else st.thumbs,
      res := { st.res with scanned := st.res.scanned + 1 } }

/-- The thumbnail-file set after the full-processing branch ran on `f`:
images attempt `createImageThumbnail` when the content-addressed file is
absent; videos attempt `createVideoThumbnail` then; audio/unknown touch
nothing. -/
def fullThumbs (env : ScanEnv) (thumbs : List String) (f : FsFile) :
    List String :=
  let thumbPath0 := thumbFilePath env f.sha256
  match typeFromExtension f.ext with
  | .image =>
    if !thumbs.contains thumbPath0 && f.imageThumbOk then
      addThumb thumbPath0 thumbs
    else thumbs
  | .video =>
    if thumbs.contains thumbPath0 then thumbs
    else if f.videoThumbOk then addThumb thumbPath0 thumbs else thumbs
  | _ => thumbs

/-- The `thumbPath` local of the full-processing branch at upsert time:
images keep the content-addressed path even when creation failed; videos
clear it when the file was absent and creation failed; audio/unknown
clear it always. -/
def fullThumbPath (env : ScanEnv) (thumbs : List String) (f : FsFile) :
    String :=
  let thumbPath0 := thumbFilePath env f.sha256
  match typeFromExtension f.ext with
  | .image => thumbPath0
  | .video =>
    if thumbs.contains thumbPath0 then thumbPath0
    else if f.videoThumbOk then thumbPath0 else ""
  | _ => ""

/-- The `MediaRecord` the full-processing branch upserts (lines 316–328):
`pHash`, dimensions and capture time are only filled for the kinds whose
branch computes them (`width`/`height` for image and video, `pHash` and
`capturedTime` for image; the C++ leaves the locals at 0 otherwise), and
the `record.width = width if width > 0` style guards become `Option`s. -/
def fullRecord (env : ScanEnv) (thumbs : List String) (f : FsFile) :
    MediaRecord :=
  let mediaType := typeFromExtension f.ext
  let width : Int :=
    match mediaType with | .image => f.width | .video => f.width | _ => 0
  let height : Int :=
    match mediaType with | .image => f.height | .video => f.height | _ => 0
  let pHash : String := match mediaType with | .image => f.pHash | _ => ""
  let capturedTime : Int :=
    match mediaType with | .image => f.capturedTime | _ => 0
  { filePath := f.path,
    rootDir := env.rootDir,
    fileName := f.fileName,
    sha256 := f.sha256,
    pHash := pHash,
    width := if width > 0 then some width else none,
    height := if height > 0 then some height else none,
    sizeBytes := some f.sizeBytes,
    capturedTimeUtc := if capturedTime > 0 then some capturedTime else none,
    modifiedTimeUtc := some f.modifiedTimeUtc,
    mediaType := mediaType,
    thumbnailPath := fullThumbPath env thumbs f,
    error := "" }

/-- The full-processing branch of `ScannerWorker::process` (lines
282–333): hash, per-kind metadata and thumbnail, then
`Database::upsertMedia`; `addedOrUpdated` is bumped when the returned id
is positive. -/
def fullProcess (env : ScanEnv) (st : ScanState) (f : FsFile) : ScanState :=
  { db := (Database.upsertMedia (fullRecord env st.thumbs f) st.db).1,
    thumbs := fullThumbs env st.thumbs f,
    res := { scanned := st.res.scanned + 1,
             addedOrUpdated :=
               st.res.addedOrUpdated +
                 (if (Database.upsertMedia (fullRecord env st.thumbs f) st.db).2 > 0
                  then 1 else 0),
             errors := st.res.errors } }

/-- The error record built in the catch branch (lines 339–345): only
path, root, file name, kind-from-extension and the exception message are
set; everything else keeps the `MediaRecord` defaults. -/
def errorRecord (env : ScanEnv) (f : FsFile) (msg : String) : MediaRecord :=
  { filePath := f.path,
    rootDir := env.rootDir,
    fileName := f.fileName,
    mediaType := typeFromExtension f.ext,
    error := msg }

/-- One iteration of the loop in `ScannerWorker::process`: the catch
branch records an error record and counts an error; otherwise the
snapshot decides between fast skip / thumbnail refresh (on size, mtime
and non-empty-hash match) and full processing.  Every branch ends with
`result.scanned++`. -/
def processFile (env : ScanEnv) (snap : List (String × Database.SnapshotEntry))
    (st : ScanState) (f : FsFile) : ScanState :=
  match f.throwsMsg with
  | some msg =>
    { db := (Database.upsertMedia (errorRecord env f msg) st.db).1,
      thumbs := st.thumbs,
      res := { scanned := st.res.scanned + 1,
               addedOrUpdated := st.res.addedOrUpdated,
               errors := st.res.errors + 1 } }
  | none =>
    match lookupSnap snap f.path with
    | some prev =>
      if prev.sizeBytes.getD 0 == f.sizeBytes &&
         prev.modifiedTimeUtc.getD 0 == f.modifiedTimeUtc &&
         prev.sha256 != "" then
        skipOrRefresh env prev st f
      else fullProcess env st f
    | none => fullProcess env st f

/-- `ScannerWorker::process`: mark files missing from the enumeration as
deleted, load the snapshot once (after the marking, as in the C++), then
fold the per-file step over the enumeration order. -/
def scanProcess (env : ScanEnv) (db0 : Database) (thumbs0 : List String) :
    ScanState :=
  env.files.foldl
    (processFile env (Database.existingMediaMapForRoot env.rootDir
      (Database.markMissingFilesDeleted (env.files.map (·.path))
        env.rootDir db0).1))
    ⟨(Database.markMissingFilesDeleted (env.files.map (·.path))
        env.rootDir db0).1, thumbs0, ⟨0, 0, 0⟩⟩

/-! ## ThumbnailCache (`ThumbnailCache.cpp`)

The cache's shared state is everything the mutex guards: the LRU
(`QCache`, most-recently-used first, pixmaps modelled as opaque `Nat`
values), the pending set and the queued-but-not-started pool tasks.
Qt signal emissions are returned as an event list; a worker delivery is
a call of `onThumbnailLoaded` with the decoded pixmap (`none` models a
null pixmap, i.e. decode failure). -/

/-- A queued `ThumbnailLoadTask`. -/
structure LoadTask where
  mediaId : Int
  path : String
  targetSize : Nat
deriving DecidableEq, Repr

/-- A signal emitted by the cache: `thumbnailLoaded` or `thumbnailFailed`. -/
inductive CacheEvent where
  | loaded (mediaId : Int) (pix : Nat)
  | failed (mediaId : Int)
deriving DecidableEq, Repr

/-- The mutex-guarded state of `ThumbnailCache`. -/
structure CacheState where
  capacity : Nat
  cache : List (String × Nat)
  pending : List Int
  queue : List LoadTask
deriving DecidableEq, Repr

/-- `ThumbnailCache::cacheKey`: `"%1_%2"` with the id and the size. -/
def cacheKey (mediaId : Int) (targetSize : Nat) : String :=
  toString mediaId ++ "_" ++ toString targetSize

/-- `QCache::object`: look a key up and move it to the front
(most-recently-used). -/
def cacheLookup (key : String) (cache : List (String × Nat)) :
    Option (Nat × List (String × Nat)) :=
  match cache.find? (fun e => e.1 == key) with
  | some e => some (e.2, e :: cache.filter (fun x => !(x.1 == key)))
  | none => none

/-- `QCache::insert` with unit cost: put the entry in front (replacing
any entry under the same key) and evict least-recently-used entries
while over capacity. -/
def cacheInsert (capacity : Nat) (key : String) (pix : Nat)
    (cache : List (String × Nat)) : List (String × Nat) :=
  ((key, pix) :: cache.filter (fun x => !(x.1 == key))).take capacity

/-- `ThumbnailCache::requestThumbnail`.  `fs` is the set of files
`QFileInfo::exists` sees.  Returns the new state, the tasks started on
the pool, and the signals emitted (queued emissions included). -/
def requestThumbnail (fs : List String) (mediaId : Int)
    (thumbnailPath : String) (targetSize : Nat) (s : CacheState) :
    CacheState × List LoadTask × List CacheEvent :=
  match cacheLookup (cacheKey mediaId targetSize) s.cache with
  | some (pix, cache') =>
    ({ s with cache := cache' }, [], [.loaded mediaId pix])
  | none =>
    if s.pending.contains mediaId then (s, [], [])
    else if thumbnailPath == "" || !fs.contains thumbnailPath then
      (s, [], [.failed mediaId])
    else
      ({ s with
          pending := s.pending ++ [mediaId],
          queue := s.queue ++ [⟨mediaId, thumbnailPath, targetSize⟩] },
       [⟨mediaId, thumbnailPath, targetSize⟩], [])

/-- `ThumbnailCache::cancelRequest`: remove the id from the pending set
only (`m_threadPool` is not touched). -/
def cancelRequest (mediaId : Int) (s : CacheState) : CacheState :=
  { s with pending := s.pending.filter (fun x => !(x == mediaId)) }

/-- `ThumbnailCache::cancelPendingRequests`: clear the pending set and
purge the queued-but-not-started pool tasks (`QThreadPool::clear`). -/
def cancelPendingRequests (s : CacheState) : CacheState :=
  { s with pending := [], queue := [] }

/-- `ThumbnailCache::clear`. -/
def cacheClear (s : CacheState) : CacheState := { s with cache := [] }

/-- `ThumbnailCache::onThumbnailLoaded`: a delivery whose id is no
longer pending is dropped without touching the state or emitting;
otherwise the id leaves the pending set and the result is cached and
announced (or announced as failed when the pixmap is null). -/
def onThumbnailLoaded (mediaId : Int) (targetSize : Nat) (pixmap : Option Nat)
    (s : CacheState) : CacheState × List CacheEvent :=
  if !s.pending.contains mediaId then (s, [])
  else
    let s1 := { s with pending := s.pending.filter (fun x => !(x == mediaId)) }
    match pixmap with
    | some pix =>
      ({ s1 with cache :=
          cacheInsert s1.capacity (cacheKey mediaId targetSize) pix s1.cache },
       [.loaded mediaId pix])
    | none => (s1, [.failed mediaId])

/-! ## The fast-skip precondition

The per-file condition under which the loop body of
`ScannerWorker::process` takes the fast-skip branch (`result.scanned++;
continue;`) and touches neither the store nor the disk: a snapshot entry
matching on size and mtime with a non-empty hash whose recorded
thumbnail file exists. -/

/-- Does `f` take the fast-skip branch against snapshot `snap` with
thumbnail files `thumbs` on disk? -/
def canFastSkip (snap : List (String × Database.SnapshotEntry))
    (thumbs : List String) (f : FsFile) : Bool :=
  match lookupSnap snap f.path with
  | some prev =>
    (prev.sizeBytes.getD 0 == f.sizeBytes) &&
    (prev.modifiedTimeUtc.getD 0 == f.modifiedTimeUtc) &&
    (prev.sha256 != "") && (prev.thumbnailPath != "") &&
    thumbs.contains prev.thumbnailPath
  | none => false

/-! ## Concrete instances

Small concrete stores, scan environments and cache states used to
instantiate the theorems below. -/

/-- An active image row under root `"r"`. -/
def rowA : MediaRow :=
  { id := 1, filePath := "r/a.jpg", rootDir := "r", fileName := "a.jpg",
    sha256 := "h", pHash := "", width := none, height := none,
    sizeBytes := some 10, capturedTimeUtc := none, modifiedTimeUtc := some 5,
    mediaType := "image", thumbnailPath := "", status := "active", error := "" }

/-- A store holding one untagged media row. -/
def dbOneMedia : Database :=
  { media := [rowA], tags := [], mediaTags := [], nextMediaId := 2,
    nextTagId := 1 }

/-- Tag media 1 with `"z"`, then remove that tag from media 1 again:
the store after the last association of `"z"` has been removed. -/
def dbTagRemoved : Database :=
  Database.removeMediaTags 1 ["z"] (Database.addMediaTags 1 ["z"] dbOneMedia)

/-- One media row tagged `"x"`: media 1 carries tag 1.-/
def dbTagged : Database :=
  { media := [rowA], tags := [⟨1, "x"⟩], mediaTags := [(1, 1)],
    nextMediaId := 2, nextTagId := 2 }

/-- A row like `rowA` at another path and id. -/
def mkActiveRow (i : Int) (p : String) : MediaRow :=
  { rowA with id := i, filePath := p, fileName := p }

/-- Media A tagged {x,y}, B tagged {x}, C tagged {y}. -/
def dbAxyBxCy : Database :=
  { media := [mkActiveRow 1 "A", mkActiveRow 2 "B", mkActiveRow 3 "C"],
    tags := [⟨1, "x"⟩, ⟨2, "y"⟩],
    mediaTags := [(1, 1), (1, 2), (2, 1), (3, 2)],
    nextMediaId := 4, nextTagId := 3 }

/-- One tag `"x"` whose only association points at a soft-deleted row. -/
def dbDeletedTagged : Database :=
  { media := [{ rowA with status := "deleted" }], tags := [⟨1, "x"⟩],
    mediaTags := [(1, 1)], nextMediaId := 2, nextTagId := 2 }

/-- An image file that cannot be opened: `computeSha256` returns `""`,
no exception is thrown, decoding fails. -/
def fUnreadable : FsFile :=
  { path := "r/a.jpg", fileName := "a.jpg", ext := ".jpg", sizeBytes := 10,
    modifiedTimeUtc := 5, sha256 := "", pHash := "", width := 0, height := 0,
    capturedTime := 0, imageThumbOk := false, videoThumbOk := false,
    throwsMsg := none }

/-- A scan root containing only the unreadable image. -/
def envUnreadable : ScanEnv :=
  { rootDir := "r", thumbnailsDir := "r/thumbnails", files := [fUnreadable] }

/-- First scan of the unreadable-image root against an empty store. -/
def runFirst : ScanState := scanProcess envUnreadable Database.empty []

/-- Second scan of the same root with no filesystem change in between. -/
def runSecond : ScanState := scanProcess envUnreadable runFirst.db runFirst.thumbs

/-- A healthy readable image file. -/
def fGood : FsFile :=
  { fUnreadable with
    sha256 := "h"
    imageThumbOk := true
    width := 100
    height := 100 }

/-- A root containing only the healthy image. -/
def envGood : ScanEnv :=
  { rootDir := "r", thumbnailsDir := "r/thumbnails", files := [fGood] }

/-- The store after a fully successful scan of `envGood`: the row
matches `fGood` on size and mtime, has its hash and points at the
existing thumbnail file. -/
def dbScanned : Database :=
  { media := [{ rowA with
      sha256 := "h", pHash := "", width := some 100, height := some 100,
      thumbnailPath := "r/thumbnails/h.jpg" }],
    tags := [], mediaTags := [], nextMediaId := 2, nextTagId := 1 }

/-- A video file whose per-file processing throws `"boom"`. -/
def fThrowing : FsFile :=
  { fUnreadable with
    path := "r/b.mp4"
    fileName := "b.mp4"
    ext := ".mp4"
    throwsMsg := some "boom" }

/-- A root with the throwing video first and the healthy image second. -/
def envThrow : ScanEnv :=
  { rootDir := "r", thumbnailsDir := "r/thumbnails",
    files := [fThrowing, fGood] }

/-- A fresh thumbnail cache of capacity 500 (the constructor default). -/
def cacheState0 : CacheState :=
  { capacity := 500, cache := [], pending := [], queue := [] }

/-! ## Helper lemmas -/

/-- Both UPDATE statements of `markMissingFilesDeleted` implement the
same row transformation; the empty-list special case only exists because
SQL cannot spell `NOT IN ()`. -/
theorem markMissingFilesDeleted_eq (existingPaths : List String)
    (rootDir : String) (db : Database) :
    Database.markMissingFilesDeleted existingPaths rootDir db =
      ({ db with media := db.media.map (fun m =>
          if m.rootDir == rootDir && m.status == "active" &&
             !(existingPaths.contains m.filePath)
          then { m with status := "deleted" } else m) },
       (db.media.filter (fun m =>
          m.rootDir == rootDir && m.status == "active" &&
          !(existingPaths.contains m.filePath))).length) := by
  cases existingPaths with
  | nil => simp [Database.markMissingFilesDeleted]
  | cons p ps => simp [Database.markMissingFilesDeleted]

/-- When every active row under the root is among the observed paths,
`markMissingFilesDeleted` leaves the store unchanged. -/
theorem markMissing_id_of_observed (existingPaths : List String)
    (rootDir : String) (db : Database)
    (h : ∀ m ∈ db.media, m.status = "active" → m.rootDir = rootDir →
      m.filePath ∈ existingPaths) :
    (Database.markMissingFilesDeleted existingPaths rootDir db).1 = db := by
  rw [markMissingFilesDeleted_eq]
  have hmap : db.media.map (fun m =>
      if m.rootDir == rootDir && m.status == "active" &&
         !(existingPaths.contains m.filePath)
      then { m with status := "deleted" } else m) = db.media := by
    refine (List.map_congr_left ?_).trans (List.map_id _)
    intro m hm
    by_cases hs : m.status = "active"
    · by_cases hr : m.rootDir = rootDir
      · simp [hs, hr, h m hm hs hr]
      · simp [hr]
    · simp [hs]
  rw [hmap]

/-- The fold realising the per-id DELETE loop of
`Database::removeMediaTags` never touches the `tags` table. -/
theorem foldl_removeMT_preserves_tags (mediaId : Int) (tagIds : List Int)
    (db : Database) :
    (tagIds.foldl (fun d tagId =>
      { d with mediaTags :=
          d.mediaTags.filter (fun mt => !(mt.1 == mediaId && mt.2 == tagId)) })
      db).tags = db.tags := by
  induction tagIds generalizing db with
  | nil => rfl
  | cons t ts ih =>
    rw [List.foldl_cons]
    exact ih _

/-- Filtering an element out makes `contains` false for it. -/
theorem contains_filter_bne {α : Type} [BEq α] [LawfulBEq α] (l : List α)
    (a : α) :
    (l.filter (fun x => !(x == a))).contains a = false := by
  apply Bool.eq_false_iff.mpr
  intro hc
  have hmem : a ∈ l.filter (fun x => !(x == a)) := List.elem_iff.mp hc
  have hpa := List.of_mem_filter hmem
  simp at hpa

/-- With unique media ids, a junction row's media joins at most one
media row (active or not). -/
theorem length_filter_id_le_one (l : List MediaRow) (x : Int)
    (h : (l.map (·.id)).Nodup) :
    (l.filter (fun m => m.id == x && m.status == "active")).length ≤ 1 := by
  induction l with
  | nil => simp
  | cons a as ih =>
    rw [List.map_cons, List.nodup_cons] at h
    obtain ⟨ha, has⟩ := h
    rw [List.filter_cons]
    by_cases hax : a.id = x
    · have hnil : as.filter (fun m => m.id == x && m.status == "active") = [] := by
        apply List.filter_eq_nil_iff.mpr
        intro m hm hcond
        rw [Bool.and_eq_true, beq_iff_eq] at hcond
        exact ha (hax ▸ hcond.1 ▸ List.mem_map_of_mem (·.id) hm)
      split
      · simp [hnil]
      · simp [hnil]
    · have hc : (a.id == x && a.status == "active") = false := by
        simp [hax]
      rw [hc]
      simpa using ih has

/-- With unique media ids, the `LEFT JOIN media` of `tagCounts` yields
exactly one output row per junction row, each with a non-null
`media_tags` side, so `COUNT(mt.media_id)` over them is the junction-row
count — whatever the media rows' statuses. -/
theorem flatMap_join_count (db : Database)
    (h : (db.media.map (·.id)).Nodup) (mts : List (Int × Int)) :
    ((mts.flatMap (fun mt =>
      if (db.media.filter (fun m => m.id == mt.1 && m.status == "active")).isEmpty
      then [((some mt : Option (Int × Int)), (none : Option MediaRow))]
      else (db.media.filter (fun m => m.id == mt.1 && m.status == "active")).map
        (fun m => (some mt, some m)))).filter (fun r => r.1.isSome)).length =
      mts.length := by
  induction mts with
  | nil => rfl
  | cons mt rest ih =>
    rw [List.flatMap_cons, List.filter_append, List.length_append, ih]
    have hhead : ((if (db.media.filter (fun m =>
        m.id == mt.1 && m.status == "active")).isEmpty
      then [((some mt : Option (Int × Int)), (none : Option MediaRow))]
      else (db.media.filter (fun m => m.id == mt.1 && m.status == "active")).map
        (fun m => (some mt, some m))).filter (fun r => r.1.isSome)).length = 1 := by
      by_cases hm : (db.media.filter (fun m =>
          m.id == mt.1 && m.status == "active")).isEmpty
      · rw [if_pos hm]
        rfl
      · rw [if_neg hm]
        have hkeep : ((db.media.filter (fun m =>
            m.id == mt.1 && m.status == "active")).map
              (fun m => ((some mt : Option (Int × Int)), (some m : Option MediaRow)))).filter
            (fun r => r.1.isSome) =
            (db.media.filter (fun m => m.id == mt.1 && m.status == "active")).map
              (fun m => (some mt, some m)) := by
          apply List.filter_eq_self.mpr
          intro r hr
          obtain ⟨m', _, rfl⟩ := List.mem_map.mp hr
          rfl
        rw [hkeep, List.length_map]
        have hle := length_filter_id_le_one db.media mt.1 h
        have hpos : 0 < (db.media.filter (fun m =>
            m.id == mt.1 && m.status == "active")).length :=
          List.length_pos.mpr (fun hnil => hm (by rw [hnil]; rfl))
        omega
    rw [hhead, List.length_cons]
    omega

/-- A file satisfying the fast-skip condition leaves the loop state
untouched except for `result.scanned++`. -/
theorem processFile_skip (env : ScanEnv)
    (snap : List (String × Database.SnapshotEntry)) (st : ScanState)
    (f : FsFile) (hth : f.throwsMsg = none)
    (hskip : canFastSkip snap st.thumbs f = true) :
    processFile env snap st f =
      { st with res := { st.res with scanned := st.res.scanned + 1 } } := by
  unfold canFastSkip at hskip
  unfold processFile
  rw [hth]
  cases hsn : lookupSnap snap f.path with
  | none =>
    rw [hsn] at hskip
    exact absurd hskip (Bool.false_ne_true)
  | some prev =>
    rw [hsn] at hskip
    simp only [Bool.and_eq_true] at hskip
    obtain ⟨⟨⟨⟨h1, h2⟩, h3⟩, h4⟩, h5⟩ := hskip
    dsimp only
    rw [if_pos (by simp only [Bool.and_eq_true]; exact ⟨⟨h1, h2⟩, h3⟩)]
    unfold skipOrRefresh
    rw [if_pos (by simp only [Bool.and_eq_true]; exact ⟨h4, h5⟩)]

/-- Folding the loop over files that all fast-skip only counts them. -/
theorem foldl_skip_all (env : ScanEnv)
    (snap : List (String × Database.SnapshotEntry)) (fs : List FsFile)
    (st : ScanState)
    (h : ∀ f ∈ fs, f.throwsMsg = none ∧ canFastSkip snap st.thumbs f = true) :
    fs.foldl (processFile env snap) st =
      { st with res := { st.res with scanned := st.res.scanned + fs.length } } := by
  induction fs generalizing st with
  | nil => rfl
  | cons f fs ih =>
    obtain ⟨h1, h2⟩ := h f (List.mem_cons_self f fs)
    rw [List.foldl_cons, processFile_skip env snap st f h1 h2,
      ih { st with res := { st.res with scanned := st.res.scanned + 1 } }
        (fun g hg => h g (List.mem_cons_of_mem f hg))]
    have harith : st.res.scanned + 1 + fs.length =
        st.res.scanned + (f :: fs).length := by
      rw [List.length_cons]
      omega
    dsimp only
    rw [harith]

/-- Every branch of the loop body increments `scanned` by exactly 1. -/
theorem processFile_scanned (env : ScanEnv)
    (snap : List (String × Database.SnapshotEntry)) (st : ScanState)
    (f : FsFile) :
    (processFile env snap st f).res.scanned = st.res.scanned + 1 := by
  unfold processFile
  cases hth : f.throwsMsg with
  | some msg => rfl
  | none =>
    cases hsn : lookupSnap snap f.path with
    | some prev =>
      dsimp only
      split
      · unfold skipOrRefresh
        split
        · rfl
        · rfl
      · rfl
    | none => rfl

/-- The loop visits (and counts) every file: `scanned` grows by the
number of files folded over, whatever happens per file. -/
theorem foldl_scanned (env : ScanEnv)
    (snap : List (String × Database.SnapshotEntry)) (fs : List FsFile)
    (st : ScanState) :
    (fs.foldl (processFile env snap) st).res.scanned =
      st.res.scanned + fs.length := by
  induction fs generalizing st with
  | nil => rfl
  | cons f fs ih =>
    rw [List.foldl_cons, ih, processFile_scanned, List.length_cons]
    omega

/-- The error counter never decreases across one loop iteration. -/
theorem processFile_errors_ge (env : ScanEnv)
    (snap : List (String × Database.SnapshotEntry)) (st : ScanState)
    (f : FsFile) :
    st.res.errors ≤ (processFile env snap st f).res.errors := by
  unfold processFile
  cases hth : f.throwsMsg with
  | some msg => exact Nat.le_succ _
  | none =>
    cases hsn : lookupSnap snap f.path with
    | some prev =>
      dsimp only
      split
      · unfold skipOrRefresh
        split
        · exact Nat.le_refl _
        · exact Nat.le_refl _
      · exact Nat.le_refl _
    | none => exact Nat.le_refl _

/-- The error counter never decreases across the loop. -/
theorem foldl_errors_ge (env : ScanEnv)
    (snap : List (String × Database.SnapshotEntry)) (fs : List FsFile)
    (st : ScanState) :
    st.res.errors ≤ (fs.foldl (processFile env snap) st).res.errors := by
  induction fs generalizing st with
  | nil => exact Nat.le_refl _
  | cons f fs ih =>
    rw [List.foldl_cons]
    exact Nat.le_trans (processFile_errors_ge env snap st f) (ih _)

/-- The catch branch increments the error counter by exactly 1. -/
theorem processFile_errors_throw (env : ScanEnv)
    (snap : List (String × Database.SnapshotEntry)) (st : ScanState)
    (f : FsFile) (msg : String) (h : f.throwsMsg = some msg) :
    (processFile env snap st f).res.errors = st.res.errors + 1 := by
  unfold processFile
  rw [h]

/-- After `upsertMedia`, the store holds a row at the record's path
whose kind and error columns carry the record's values (both columns are
written by the insert and by the conflict update alike). -/
theorem upsertMedia_sets_row (record : MediaRecord) (db : Database) :
    ∃ m ∈ (Database.upsertMedia record db).1.media,
      m.filePath = record.filePath ∧
      m.mediaType = mediaTypeToString record.mediaType ∧
      m.error = record.error := by
  unfold Database.upsertMedia
  cases hf : db.media.find? (fun m => m.filePath == record.filePath) with
  | some old =>
    dsimp only
    have hold : old ∈ db.media := List.mem_of_find?_eq_some hf
    have holdp := List.find?_some hf
    refine ⟨_, List.mem_map_of_mem _ hold, ?_⟩
    rw [if_pos holdp]
    exact ⟨beq_iff_eq.mp holdp, rfl, rfl⟩
  | none =>
    dsimp only
    exact ⟨_, List.mem_append_right _ (List.mem_singleton.mpr rfl),
      rfl, rfl, rfl⟩

/-- `upsertMedia` touches no row at a different path. -/
theorem upsertMedia_keeps_other (record : MediaRecord) (db : Database)
    (m : MediaRow) (hm : m ∈ db.media)
    (hne : m.filePath ≠ record.filePath) :
    m ∈ (Database.upsertMedia record db).1.media := by
  unfold Database.upsertMedia
  cases hf : db.media.find? (fun m => m.filePath == record.filePath) with
  | some old =>
    dsimp only
    have hid : (if (m.filePath == record.filePath) = true then
        { m with
          sha256 := record.sha256, pHash := record.pHash,
          width := record.width, height := record.height,
          sizeBytes := record.sizeBytes,
          capturedTimeUtc := record.capturedTimeUtc,
          modifiedTimeUtc := record.modifiedTimeUtc,
          mediaType := mediaTypeToString record.mediaType,
          thumbnailPath := record.thumbnailPath,
          status := "active", error := record.error }
      else m) = m := by
      rw [if_neg]
      simp [hne]
    exact hid ▸ List.mem_map_of_mem _ hm
  | none => exact List.mem_append_left _ hm

/-- `updateThumbnailPath` touches no row at a different path. -/
theorem updateThumbnailPath_keeps_other (filePath thumbnailPath : String)
    (db : Database) (m : MediaRow) (hm : m ∈ db.media)
    (hne : m.filePath ≠ filePath) :
    m ∈ (Database.updateThumbnailPath filePath thumbnailPath db).media := by
  unfold Database.updateThumbnailPath
  have hid : (if (m.filePath == filePath) = true then
      { m with thumbnailPath := thumbnailPath } else m) = m := by
    rw [if_neg]
    simp [hne]
  exact hid ▸ List.mem_map_of_mem _ hm

/-- One loop iteration on file `f` keeps every row at another path. -/
theorem processFile_keeps_row (env : ScanEnv)
    (snap : List (String × Database.SnapshotEntry)) (st : ScanState)
    (f : FsFile) (m : MediaRow) (hm : m ∈ st.db.media)
    (hne : m.filePath ≠ f.path) :
    m ∈ (processFile env snap st f).db.media := by
  unfold processFile
  cases hth : f.throwsMsg with
  | some msg => exact upsertMedia_keeps_other _ _ m hm hne
  | none =>
    cases hsn : lookupSnap snap f.path with
    | some prev =>
      dsimp only
      split
      · unfold skipOrRefresh
        split
        · exact hm
        · dsimp only
          by_cases hc : ((if f.isImage then f.imageThumbOk
              else if f.isVideo then f.videoThumbOk else false) &&
              (thumbFilePath env prev.sha256 != prev.thumbnailPath)) = true
          · rw [if_pos hc]
            exact updateThumbnailPath_keeps_other f.path
              (thumbFilePath env prev.sha256) st.db m hm hne
          · rw [if_neg hc]
            exact hm
      · exact upsertMedia_keeps_other _ _ m hm hne
    | none => exact upsertMedia_keeps_other _ _ m hm hne

/-- The rest of the loop keeps every row whose path it never visits. -/
theorem foldl_keeps_row (env : ScanEnv)
    (snap : List (String × Database.SnapshotEntry)) (fs : List FsFile)
    (st : ScanState) (m : MediaRow) (hm : m ∈ st.db.media)
    (hne : ∀ g ∈ fs, m.filePath ≠ g.path) :
    m ∈ (fs.foldl (processFile env snap) st).db.media := by
  induction fs generalizing st with
  | nil => exact hm
  | cons f fs ih =>
    rw [List.foldl_cons]
    exact ih _
      (processFile_keeps_row env snap st f m hm
        (hne f (List.mem_cons_self f fs)))
      (fun g hg => hne g (List.mem_cons_of_mem f hg))

/-- The catch branch leaves a row at the file's path carrying the
extension-derived kind and the exception message. -/
theorem processFile_throw_record (env : ScanEnv)
    (snap : List (String × Database.SnapshotEntry)) (st : ScanState)
    (f : FsFile) (msg : String) (h : f.throwsMsg = some msg) :
    ∃ m ∈ (processFile env snap st f).db.media,
      m.filePath = f.path ∧
      m.mediaType = mediaTypeToString (typeFromExtension f.ext) ∧
      m.error = msg := by
  unfold processFile
  rw [h]
  dsimp only
  exact upsertMedia_sets_row (errorRecord env f msg) st.db

/-! ## Claim theorems -/

/-- C6: `markMissingFilesDeleted(observedPaths, rootDir)` sets
`status='deleted'` on exactly the active rows under `rootDir` whose path
is not among the observed paths, leaves every other row unchanged,
returns the number of rows so updated, and — the empty-list special
case — soft-deletes every active row under the root when the observed
list is empty. -/
theorem markMissingDeleted_soft_deletes_unobserved (existingPaths : List String)
    (rootDir : String) (db : Database) :
    (Database.markMissingFilesDeleted existingPaths rootDir db =
      ({ db with media := db.media.map (fun m =>
          if m.rootDir == rootDir && m.status == "active" &&
             !(existingPaths.contains m.filePath)
          then { m with status := "deleted" } else m) },
       (db.media.filter (fun m =>
          m.rootDir == rootDir && m.status == "active" &&
          !(existingPaths.contains m.filePath))).length)) ∧
    (Database.markMissingFilesDeleted [] rootDir db).1.media =
      db.media.map (fun m =>
        if m.rootDir == rootDir && m.status == "active"
        then { m with status := "deleted" } else m) := by
  refine ⟨markMissingFilesDeleted_eq existingPaths rootDir db, ?_⟩
  simp [Database.markMissingFilesDeleted]

/-- C1 (amended): `removeMediaTags` deletes junction rows only — it
never deletes a tag row, so a tag whose last association it removed
still appears in `allTags()`. -/
theorem removeTags_never_deletes_tag_rows (mediaId : Int)
    (tagNames : List String) (db : Database) :
    (Database.removeMediaTags mediaId tagNames db).tags = db.tags ∧
    Database.allTags (Database.removeMediaTags mediaId tagNames db) =
      Database.allTags db := by
  have htags : (Database.removeMediaTags mediaId tagNames db).tags = db.tags := by
    unfold Database.removeMediaTags
    dsimp only
    split
    · rfl
    · split
      · rfl
      · exact foldl_removeMT_preserves_tags _ _ _
  refine ⟨htags, ?_⟩
  unfold Database.allTags
  rw [htags]

/-- C1 (counterexample): media 1 holds the only association of tag
`"z"`; `removeMediaTags` removes it, yet `"z"` still appears in
`allTags()`, contradicting the claim that the tag row is deleted with
its last association. -/
theorem removeTags_last_association_keeps_tag_listed :
    dbTagRemoved.mediaTags = [] ∧ Database.allTags dbTagRemoved = ["z"] := by
  decide

/-- C3: evaluation at the failing input.  `dbTagged` holds one media row
(`"r/a.jpg"`, id 1) whose tag `"x"` (id 1) it is associated with;
`deleteMedia` removes the media row and reports success, but the
junction row `(1, 1)` survives — `PRAGMA foreign_keys` is never enabled,
so the declared `ON DELETE CASCADE` does not fire. -/
theorem deleteMedia_leaves_dangling_junction_row :
    (Database.deleteMedia "r/a.jpg" dbTagged).1.media = [] ∧
    (Database.deleteMedia "r/a.jpg" dbTagged).1.mediaTags = [(1, 1)] ∧
    (Database.deleteMedia "r/a.jpg" dbTagged).2 = true := by
  decide

/-- C4: with media A tagged {x,y}, B tagged {x} and C tagged {y},
`queryMedia` with tags {x,y} returns exactly {A} (and total count 1)
under `matchAll=true`, and exactly {A,B,C} (total count 3) under
`matchAll=false`. -/
theorem queryMedia_and_or_semantics :
    (Database.queryMedia dbAxyBxCy ["x", "y"] "" 100 0 "" true).1.map (·.id)
        = [1] ∧
    (Database.queryMedia dbAxyBxCy ["x", "y"] "" 100 0 "" true).2 = 1 ∧
    ((Database.queryMedia dbAxyBxCy ["x", "y"] "" 100 0 "" false).1.map
        (·.id)).Perm [1, 2, 3] ∧
    (Database.queryMedia dbAxyBxCy ["x", "y"] "" 100 0 "" false).2 = 3 := by
  decide

/-- C7: once a pending request for an id has been cancelled — singly via
`cancelRequest` or in bulk via `cancelPendingRequests` — a later worker
delivery for that id changes nothing and emits nothing: the result is
dropped silently and never inserted into the LRU. -/
theorem cancelled_delivery_is_dropped (s : CacheState) (mediaId : Int)
    (targetSize : Nat) (pixmap : Option Nat) :
    onThumbnailLoaded mediaId targetSize pixmap (cancelRequest mediaId s) =
      (cancelRequest mediaId s, []) ∧
    onThumbnailLoaded mediaId targetSize pixmap (cancelPendingRequests s) =
      (cancelPendingRequests s, []) := by
  constructor
  · simp [onThumbnailLoaded, cancelRequest, contains_filter_bne]
  · simp [onThumbnailLoaded, cancelPendingRequests]

/-- C8: a `requestThumbnail` call that misses the cache on a live
thumbnail path enqueues exactly one decode task, and a second call for
the same (id, size) while the first is pending enqueues nothing, emits
nothing and leaves the state unchanged. -/
theorem duplicate_request_coalesced (fs : List String) (s : CacheState)
    (mediaId : Int) (path : String) (targetSize : Nat)
    (hcache : cacheLookup (cacheKey mediaId targetSize) s.cache = none)
    (hpending : s.pending.contains mediaId = false)
    (hpath : path ≠ "")
    (hexists : fs.contains path = true) :
    (requestThumbnail fs mediaId path targetSize s).2.1.length = 1 ∧
    (requestThumbnail fs mediaId path targetSize s).2.2 = [] ∧
    requestThumbnail fs mediaId path targetSize
        (requestThumbnail fs mediaId path targetSize s).1 =
      ((requestThumbnail fs mediaId path targetSize s).1, [], []) := by
  have hfirst : requestThumbnail fs mediaId path targetSize s =
      ({ s with
          pending := s.pending ++ [mediaId],
          queue := s.queue ++ [⟨mediaId, path, targetSize⟩] },
       [⟨mediaId, path, targetSize⟩], []) := by
    unfold requestThumbnail
    rw [hcache]
    have hp1 : mediaId ∉ s.pending := by
      intro hmem
      have hc : s.pending.contains mediaId = true := List.elem_iff.mpr hmem
      rw [hpending] at hc
      exact Bool.false_ne_true hc
    have hp2 : path ∈ fs := List.elem_iff.mp hexists
    simp [hp1, hp2, hpath]
  rw [hfirst]
  refine ⟨rfl, rfl, ?_⟩
  unfold requestThumbnail
  dsimp only
  rw [hcache]
  simp

/-- C9: `tagCounts()` counts, per tag, every `media_tags` row regardless
of the associated media row's status — the count is exactly the number
of junction rows for the tag, with no reference to `media.status`, so
soft-deleting a tagged file does not decrease its tags' counts.  (Media
ids are the PRIMARY KEY, hence the uniqueness hypothesis.) -/
theorem tagCounts_counts_deleted_associations (db : Database)
    (h : (db.media.map (·.id)).Nodup) :
    Database.tagCounts db =
      (sortListBy (fun a b => strLe a.name b.name) db.tags).map
        (fun t => (t.name,
          (db.mediaTags.filter (fun mt => mt.2 == t.id)).length)) := by
  unfold Database.tagCounts
  apply List.map_congr_left
  intro t _
  have hcount : ((Database.tagCountJoinRows db t).filter
      (fun r => r.1.isSome)).length =
      (db.mediaTags.filter (fun mt => mt.2 == t.id)).length := by
    unfold Database.tagCountJoinRows
    by_cases he : (db.mediaTags.filter (fun mt => mt.2 == t.id)).isEmpty
    · rw [if_pos he]
      have hnil : db.mediaTags.filter (fun mt => mt.2 == t.id) = [] :=
        List.isEmpty_iff.mp he
      rw [hnil]
      rfl
    · rw [if_neg he]
      exact flatMap_join_count db h _
  rw [hcount]

/-- C9 witness: tag `"x"`'s only association points at a soft-deleted
media row, yet the reported count is 1. -/
theorem tagCounts_counts_deleted_associations_witness :
    Database.tagCounts dbDeletedTagged = [("x", 1)] := by
  have h := tagCounts_counts_deleted_associations dbDeletedTagged (by decide)
  exact h.trans (by decide)

/-- C10: a `matchAll=true` query whose requested tag list contains two
entries that normalise to the same name demands
`COUNT(DISTINCT tag_id) = n` with `n` counted over the duplicated list;
at most `dedup`-many distinct ids can match, so no media qualifies and
the query returns no records and total count 0, whatever the store
holds.  (Tag names are UNIQUE, hence the name-uniqueness hypothesis.) -/
theorem queryMedia_duplicate_tags_matchAll_empty (db : Database)
    (requiredTags : List String) (searchText rootDir : String)
    (limit offset : Nat)
    (hnames : (db.tags.map (·.name)).Nodup)
    (hdup : ¬ (requiredTags.map normalizeTag).Nodup) :
    Database.queryMedia db requiredTags searchText limit offset rootDir true =
      ([], 0) := by
  have hsl : (requiredTags.map normalizeTag).dedup.length <
      (requiredTags.map normalizeTag).length := by
    rcases Nat.lt_or_ge (requiredTags.map normalizeTag).dedup.length
        (requiredTags.map normalizeTag).length with hlt | hge
    · exact hlt
    · exact absurd
        ((List.dedup_sublist (requiredTags.map normalizeTag)).eq_of_length_le hge ▸
          List.nodup_dedup (requiredTags.map normalizeTag)) hdup
  have hclause : ∀ mid : Int,
      Database.mediaMatchesTagClause db (requiredTags.map normalizeTag) true mid
        = false := by
    intro mid
    unfold Database.mediaMatchesTagClause
    rw [if_pos rfl]
    apply beq_eq_false_iff_ne.mpr
    apply Nat.ne_of_lt
    have hDnodup : (((db.mediaTags.filter (fun mt => mt.1 == mid &&
        (Database.matchingTagIds db (requiredTags.map normalizeTag)).contains
          mt.2)).map (·.2)).dedup).Nodup := List.nodup_dedup _
    have hDsub : (((db.mediaTags.filter (fun mt => mt.1 == mid &&
        (Database.matchingTagIds db (requiredTags.map normalizeTag)).contains
          mt.2)).map (·.2)).dedup) ⊆
        Database.matchingTagIds db (requiredTags.map normalizeTag) := by
      intro x hx
      have hx' := List.dedup_subset _ hx
      obtain ⟨mt, hmt, rfl⟩ := List.mem_map.mp hx'
      have hcond := List.of_mem_filter hmt
      rw [Bool.and_eq_true] at hcond
      exact List.elem_iff.mp hcond.2
    have h1 : (((db.mediaTags.filter (fun mt => mt.1 == mid &&
        (Database.matchingTagIds db (requiredTags.map normalizeTag)).contains
          mt.2)).map (·.2)).dedup).length ≤
        (Database.matchingTagIds db (requiredTags.map normalizeTag)).length := by
      calc (((db.mediaTags.filter (fun mt => mt.1 == mid &&
            (Database.matchingTagIds db (requiredTags.map normalizeTag)).contains
              mt.2)).map (·.2)).dedup).length
          = (((db.mediaTags.filter (fun mt => mt.1 == mid &&
            (Database.matchingTagIds db
              (requiredTags.map normalizeTag)).contains
              mt.2)).map (·.2)).dedup).toFinset.card :=
            (List.toFinset_card_of_nodup hDnodup).symm
        _ ≤ (Database.matchingTagIds db
              (requiredTags.map normalizeTag)).toFinset.card :=
            Finset.card_le_card (fun x hx => List.mem_toFinset.mpr
              (hDsub (List.mem_toFinset.mp hx)))
        _ ≤ (Database.matchingTagIds db
              (requiredTags.map normalizeTag)).length :=
            List.toFinset_card_le _
    have hNnodup : ((db.tags.filter (fun t =>
        (requiredTags.map normalizeTag).contains t.name)).map (·.name)).Nodup :=
      List.Nodup.sublist
        (List.Sublist.map (fun t : TagRow => t.name)
          (List.filter_sublist db.tags)) hnames
    have hNsub : ((db.tags.filter (fun t =>
        (requiredTags.map normalizeTag).contains t.name)).map (·.name)) ⊆
        requiredTags.map normalizeTag := by
      intro x hx
      obtain ⟨t, ht, rfl⟩ := List.mem_map.mp hx
      have hcond := List.of_mem_filter ht
      exact List.elem_iff.mp hcond
    have h2 : (Database.matchingTagIds db
        (requiredTags.map normalizeTag)).length ≤
        (requiredTags.map normalizeTag).dedup.length := by
      calc (Database.matchingTagIds db (requiredTags.map normalizeTag)).length
          = ((db.tags.filter (fun t =>
              (requiredTags.map normalizeTag).contains t.name)).map
                (·.name)).length := by
            unfold Database.matchingTagIds
            rw [List.length_map, List.length_map]
        _ = ((db.tags.filter (fun t =>
              (requiredTags.map normalizeTag).contains t.name)).map
                (·.name)).toFinset.card :=
            (List.toFinset_card_of_nodup hNnodup).symm
        _ ≤ (requiredTags.map normalizeTag).toFinset.card :=
            Finset.card_le_card (fun x hx => List.mem_toFinset.mpr
              (hNsub (List.mem_toFinset.mp hx)))
        _ = (requiredTags.map normalizeTag).dedup.length :=
            List.card_toFinset _
    omega
  have hne : requiredTags.isEmpty = false := by
    cases hrt : requiredTags with
    | nil =>
      subst hrt
      exact absurd List.nodup_nil hdup
    | cons a l => rfl
  have hfalse : ∀ m ∈ db.media,
      Database.rowMatchesQuery db requiredTags searchText rootDir true m
        = false := by
    intro m _
    unfold Database.rowMatchesQuery
    rw [hclause m.id, hne]
    simp
  have hnil : db.media.filter
      (Database.rowMatchesQuery db requiredTags searchText rootDir true) = [] :=
    List.filter_eq_nil_iff.mpr (fun m hm => by simp [hfalse m hm])
  unfold Database.queryMedia
  rw [hnil]
  simp [sortListBy]

/-- C10 witness: `"x"` and `" X "` normalise to the same tag name; the
query over the A/B/C store returns nothing although media are tagged
`x`. -/
theorem queryMedia_duplicate_tags_matchAll_empty_witness :
    Database.queryMedia dbAxyBxCy ["x", " X "] "" 100 0 "" true = ([], 0) :=
  queryMedia_duplicate_tags_matchAll_empty dbAxyBxCy ["x", " X "] "" "" 100 0
    (by decide) (by decide)

/-- C2 (amended): a re-scan against a store in which every enumerated
file meets the fast-skip precondition (snapshot match on size and mtime,
non-empty stored hash, existing recorded thumbnail file) and whose
active rows under the root are all among the enumerated paths performs
no store or disk write at all and reports
`{scanned = total, addedOrUpdated = 0, errors = 0}`. -/
theorem second_scan_all_fastskip_noop (env : ScanEnv) (db : Database)
    (thumbs : List String)
    (hobs : ∀ m ∈ db.media, m.status = "active" → m.rootDir = env.rootDir →
      m.filePath ∈ env.files.map (·.path))
    (hskip : ∀ f ∈ env.files, f.throwsMsg = none ∧
      canFastSkip (Database.existingMediaMapForRoot env.rootDir db) thumbs f
        = true) :
    scanProcess env db thumbs = ⟨db, thumbs, ⟨env.files.length, 0, 0⟩⟩ := by
  unfold scanProcess
  rw [markMissing_id_of_observed _ _ _ hobs]
  rw [foldl_skip_all env _ env.files ⟨db, thumbs, ⟨0, 0, 0⟩⟩ hskip]
  dsimp only
  rw [Nat.zero_add]

/-- C2 witness: re-scanning `envGood` against the store a successful
first scan left behind (with the thumbnail file on disk) changes nothing
and reports `addedOrUpdated = 0`. -/
theorem second_scan_all_fastskip_noop_witness :
    scanProcess envGood dbScanned ["r/thumbnails/h.jpg"] =
      ⟨dbScanned, ["r/thumbnails/h.jpg"], ⟨1, 0, 0⟩⟩ :=
  second_scan_all_fastskip_noop envGood dbScanned ["r/thumbnails/h.jpg"]
    (by decide) (by decide)

/-- C2 (counterexample): with one unreadable image under the root —
`computeSha256` returns the empty string, no exception — the first scan
stores a row with a NULL hash, so the second scan, with no filesystem
change in between, reprocesses and upserts it again: its summary has
`addedOrUpdated = 1`, not 0 as the claim states. -/
theorem second_scan_addedOrUpdated_nonzero :
    runSecond.res.addedOrUpdated = 1 ∧
    ¬ runSecond.res.addedOrUpdated = 0 := by
  decide

/-- C5 (amended): a file whose per-file processing throws an exception
does not abort the run — every file is still visited and counted, the
error counter is positive, and the store holds a row at the file's path
whose kind comes from its extension and whose error column carries the
exception message. -/
theorem scan_exception_isolated (env : ScanEnv) (db : Database)
    (thumbs : List String) (f : FsFile) (msg : String)
    (hmem : f ∈ env.files) (hthrows : f.throwsMsg = some msg)
    (hnodup : (env.files.map (·.path)).Nodup) :
    (scanProcess env db thumbs).res.scanned = env.files.length ∧
    1 ≤ (scanProcess env db thumbs).res.errors ∧
    ∃ m ∈ (scanProcess env db thumbs).db.media,
      m.filePath = f.path ∧
      m.mediaType = mediaTypeToString (typeFromExtension f.ext) ∧
      m.error = msg := by
  obtain ⟨pre, post, hsplit⟩ := List.append_of_mem hmem
  refine ⟨?_, ?_, ?_⟩
  · unfold scanProcess
    rw [foldl_scanned]
    dsimp only
    rw [Nat.zero_add]
  · unfold scanProcess
    rw [hsplit, List.foldl_append, List.foldl_cons]
    have h1 := processFile_errors_throw env
      (Database.existingMediaMapForRoot env.rootDir
        (Database.markMissingFilesDeleted ((pre ++ f :: post).map (·.path))
          env.rootDir db).1)
      (List.foldl (processFile env
        (Database.existingMediaMapForRoot env.rootDir
          (Database.markMissingFilesDeleted ((pre ++ f :: post).map (·.path))
            env.rootDir db).1))
        ⟨(Database.markMissingFilesDeleted ((pre ++ f :: post).map (·.path))
            env.rootDir db).1, thumbs, ⟨0, 0, 0⟩⟩ pre)
      f msg hthrows
    have h2 := foldl_errors_ge env
      (Database.existingMediaMapForRoot env.rootDir
        (Database.markMissingFilesDeleted ((pre ++ f :: post).map (·.path))
          env.rootDir db).1)
      post
      (processFile env
        (Database.existingMediaMapForRoot env.rootDir
          (Database.markMissingFilesDeleted ((pre ++ f :: post).map (·.path))
            env.rootDir db).1)
        (List.foldl (processFile env
          (Database.existingMediaMapForRoot env.rootDir
            (Database.markMissingFilesDeleted ((pre ++ f :: post).map (·.path))
              env.rootDir db).1))
          ⟨(Database.markMissingFilesDeleted ((pre ++ f :: post).map (·.path))
              env.rootDir db).1, thumbs, ⟨0, 0, 0⟩⟩ pre)
        f)
    omega
  · have hpath : ∀ g ∈ post, f.path ≠ g.path := by
      rw [hsplit, List.map_append, List.map_cons] at hnodup
      have h2 := (List.nodup_append.mp hnodup).2.1
      intro g hg heq
      exact (List.nodup_cons.mp h2).1
        (heq ▸ List.mem_map_of_mem (·.path) hg)
    unfold scanProcess
    rw [hsplit, List.foldl_append, List.foldl_cons]
    obtain ⟨m, hm, hf1, hf2, hf3⟩ := processFile_throw_record env
      (Database.existingMediaMapForRoot env.rootDir
        (Database.markMissingFilesDeleted ((pre ++ f :: post).map (·.path))
          env.rootDir db).1)
      (List.foldl (processFile env
        (Database.existingMediaMapForRoot env.rootDir
          (Database.markMissingFilesDeleted ((pre ++ f :: post).map (·.path))
            env.rootDir db).1))
        ⟨(Database.markMissingFilesDeleted ((pre ++ f :: post).map (·.path))
            env.rootDir db).1, thumbs, ⟨0, 0, 0⟩⟩ pre)
      f msg hthrows
    refine ⟨m, foldl_keeps_row _ _ post _ m hm ?_, hf1, hf2, hf3⟩
    intro g hg
    rw [hf1]
    exact hpath g hg

/-- C5 witness: the throwing video is processed, the scan continues to
the healthy image, and the error record carries kind `video` and message
`"boom"`. -/
theorem scan_exception_isolated_witness :
    (scanProcess envThrow Database.empty []).res.scanned =
      envThrow.files.length ∧
    1 ≤ (scanProcess envThrow Database.empty []).res.errors ∧
    ∃ m ∈ (scanProcess envThrow Database.empty []).db.media,
      m.filePath = fThrowing.path ∧
      m.mediaType = mediaTypeToString (typeFromExtension fThrowing.ext) ∧
      m.error = "boom" :=
  scan_exception_isolated envThrow Database.empty [] fThrowing "boom"
    (by decide) (by decide) (by decide)

/-- C5 (counterexample): the unreadable image — `QFile::open` fails, so
`computeSha256` returns `""` without throwing — is not recorded as an
error: the run reports zero errors and the stored row has an empty error
column, contradicting the claim that unreadable files are recorded with
a non-empty error message and counted as errors. -/
theorem unreadable_file_not_counted_as_error :
    runFirst.res.errors = 0 ∧
    runFirst.db.media.map (fun m => (m.filePath, m.error)) =
      [("r/a.jpg", "")] := by
  decide

/-- C8 witness: a fresh cache, one file `"p"` on disk, id 7 at size 128. -/
theorem duplicate_request_coalesced_witness :
    (requestThumbnail ["p"] 7 "p" 128 cacheState0).2.1.length = 1 ∧
    (requestThumbnail ["p"] 7 "p" 128 cacheState0).2.2 = [] ∧
    requestThumbnail ["p"] 7 "p" 128
        (requestThumbnail ["p"] 7 "p" 128 cacheState0).1 =
      ((requestThumbnail ["p"] 7 "p" 128 cacheState0).1, [], []) :=
  duplicate_request_coalesced ["p"] cacheState0 7 "p" 128 (by decide) (by decide)
    (by decide) (by decide)

end KeyTagger
